import Mathlib

/-!
Shallow embedding of `src/app.py` (Dehradun shortest-route Streamlit app).

Numbers are modelled as rationals (`ℚ`).  Python code that can raise an
exception is modelled with `Option`/`Except`: a `none` (resp. `.error`)
result marks a raised exception.  Edge attribute dictionaries are modelled
by `EdgeData`, tracking the one attribute the program reads (`length`),
with `Option` marking a possibly missing attribute.
-/

namespace GraphApp

/-- Node attribute record: `y` is latitude, `x` is longitude
(osmnx convention used at `app.py` line 38). -/
structure NodeData where
  y : ℚ
  x : ℚ
  deriving Repr, DecidableEq

/-- Edge attribute dictionary, restricted to the one key the program
reads: `length` (meters); `none` models a dict missing the key. -/
structure EdgeData where
  length : Option ℚ
  deriving Repr, DecidableEq

/-- The raw (multi)graph returned by `ox.graph_from_place`: node list and
edge list in insertion order; several edges may share the same ordered
node pair (parallel edges of the multigraph). -/
structure RawGraph where
  nodes : List (Nat × NodeData)
  edges : List ((Nat × Nat) × EdgeData)
  deriving Repr, DecidableEq

/-- The simple directed graph (`nx.DiGraph`): at most one stored edge per
ordered node pair is the invariant to be proved, not assumed. -/
structure Graph where
  nodes : List (Nat × NodeData)
  edges : List ((Nat × Nat) × EdgeData)
  deriving Repr, DecidableEq

/-- `G.get_edge_data(u, v, default)` (networkx): the attribute dict of the
edge `(u, v)` when present.  `none` models the caller-supplied default
being returned (the call site at `app.py` line 32 passes the integer `0`,
on which the subsequent `.get` raises). -/
def get_edge_data (G : Graph) (u v : Nat) : Option EdgeData :=
  (G.edges.find? (fun e => decide (e.1 = (u, v)))).map Prod.snd

/-- Node ids of the graph. -/
def nodeIds (G : Graph) : List Nat :=
  G.nodes.map Prod.fst

/-- `G.nodes[n]` lookup: attribute record of node `n`, `none` models the
`KeyError` when `n` is not a node. -/
def nodeData (G : Graph) (n : Nat) : Option NodeData :=
  (G.nodes.find? (fun e => decide (e.1 = n))).map Prod.snd

/-- `app.py` lines 29-34, `get_route_length_km`: walks consecutive pairs of
the route; for each pair `G.get_edge_data(u, v, 0)` yields the edge dict,
on which `.get('length', 0)` is summed; the total is divided by 1000.
When a consecutive pair is not an edge the default `0` (an `int`) is
returned and `.get` raises `AttributeError`: modelled by `none`. -/
def get_route_length_km (G : Graph) (route : List Nat) : Option ℚ :=
  (routeLengthSum G route).map (fun total => total / 1000)
where
  /-- The accumulated meter total of the loop body, `none` on a raise. -/
  routeLengthSum (G : Graph) : List Nat → Option ℚ
    | u :: v :: rest => do
        let ed ← get_edge_data G u v
        let s ← routeLengthSum G (v :: rest)
        pure (ed.length.getD 0 + s)
    | _ => some 0

/-- Whether every consecutive pair of the route is an edge of `G`
(the Route invariant of the data model). -/
def isChain (G : Graph) : List Nat → Bool
  | u :: v :: rest => (get_edge_data G u v).isSome && isChain G (v :: rest)
  | _ => true

/-- Meter total along a route where an existing edge missing its `length`
attribute contributes `0` (and a missing edge also contributes `0`):
the sum the program computes whenever it does not raise. -/
def sumLengths (G : Graph) : List Nat → ℚ
  | u :: v :: rest =>
      (match get_edge_data G u v with
        | some ed => ed.length.getD 0
        | none => 0) + sumLengths G (v :: rest)
  | _ => 0

/-- Every traversed edge that exists has a non-negative
`length`-contribution (a missing `length` attribute counts as `0`). -/
def nonnegChain (G : Graph) : List Nat → Bool
  | u :: v :: rest =>
      (match get_edge_data G u v with
        | some ed => decide (0 ≤ ed.length.getD 0)
        | none => true) && nonnegChain G (v :: rest)
  | _ => true

theorem routeLengthSum_eq_some_of_isChain (G : Graph) :
    ∀ route : List Nat, isChain G route = true →
      get_route_length_km.routeLengthSum G route = some (sumLengths G route)
  | [], _ => rfl
  | [_], _ => rfl
  | u :: v :: rest, h => by
      have h' := h
      simp only [isChain, Bool.and_eq_true, Option.isSome_iff_exists] at h'
      obtain ⟨⟨ed, hed⟩, hrest⟩ := h'
      have ih := routeLengthSum_eq_some_of_isChain G (v :: rest) hrest
      simp [get_route_length_km.routeLengthSum, sumLengths, hed, ih]

theorem routeLengthSum_eq_none_of_not_isChain (G : Graph) :
    ∀ route : List Nat, isChain G route = false →
      get_route_length_km.routeLengthSum G route = none
  | u :: v :: rest, h => by
      have h' := h
      simp only [isChain, Bool.and_eq_false_iff] at h'
      rcases h' with h' | h'
      · have hed : get_edge_data G u v = none := by
          cases hc : get_edge_data G u v with
          | none => rfl
          | some ed => simp [hc] at h'
        simp [get_route_length_km.routeLengthSum, hed]
      · have ih := routeLengthSum_eq_none_of_not_isChain G (v :: rest) h'
        simp [get_route_length_km.routeLengthSum, ih]

theorem sumLengths_nonneg (G : Graph) :
    ∀ route : List Nat, nonnegChain G route = true → 0 ≤ sumLengths G route
  | [], _ => le_refl 0
  | [_], _ => le_refl 0
  | u :: v :: rest, h => by
      have h' := h
      simp only [nonnegChain, Bool.and_eq_true] at h'
      obtain ⟨h1, h2⟩ := h'
      have ih := sumLengths_nonneg G (v :: rest) h2
      have hc : 0 ≤ (match get_edge_data G u v with
          | some ed => ed.length.getD 0
          | none => 0) := by
        cases hed : get_edge_data G u v with
        | none => simp
        | some ed =>
            simp only [hed] at h1 ⊢
            exact of_decide_eq_true h1
      calc (0 : ℚ) ≤ _ + _ := add_nonneg hc ih
        _ = sumLengths G (u :: v :: rest) := by rw [sumLengths]

theorem nonnegChain_append_singleton (G : Graph) :
    ∀ (xs : List Nat) (v : Nat), nonnegChain G (xs ++ [v]) = true →
      nonnegChain G xs = true
  | [], _, _ => rfl
  | [_], _, h => rfl
  | u :: w :: rest, v, h => by
      have h' := h
      simp only [List.cons_append, nonnegChain, Bool.and_eq_true] at h'
      obtain ⟨h1, h2⟩ := h'
      have ih := nonnegChain_append_singleton G (w :: rest) v (by
        simpa [List.cons_append] using h2)
      simp [nonnegChain, h1, ih]

theorem sumLengths_append_singleton_mono (G : Graph) :
    ∀ (xs : List Nat) (v : Nat), nonnegChain G (xs ++ [v]) = true →
      sumLengths G xs ≤ sumLengths G (xs ++ [v])
  | [], v, _ => le_refl 0
  | [u], v, h => by
      have h' := h
      simp only [List.cons_append, List.nil_append, nonnegChain,
        Bool.and_eq_true] at h'
      have hc : 0 ≤ (match get_edge_data G u v with
          | some ed => ed.length.getD 0
          | none => 0) := by
        cases hed : get_edge_data G u v with
        | none => simp
        | some ed =>
            obtain ⟨h1, _⟩ := h'
            simp only [hed] at h1 ⊢
            exact of_decide_eq_true h1
      have : sumLengths G ([u] ++ [v]) =
          (match get_edge_data G u v with
            | some ed => ed.length.getD 0
            | none => 0) + 0 := rfl
      simp only [sumLengths, this]
      linarith
  | u :: w :: rest, v, h => by
      have h' := h
      simp only [List.cons_append, nonnegChain, Bool.and_eq_true] at h'
      obtain ⟨h1, h2⟩ := h'
      have ih := sumLengths_append_singleton_mono G (w :: rest) v (by
        simpa [List.cons_append] using h2)
      have e1 : sumLengths G (u :: w :: rest) =
          (match get_edge_data G u w with
            | some ed => ed.length.getD 0
            | none => 0) + sumLengths G (w :: rest) := rfl
      have e2 : sumLengths G ((u :: w :: rest) ++ [v]) =
          (match get_edge_data G u w with
            | some ed => ed.length.getD 0
            | none => 0) + sumLengths G ((w :: rest) ++ [v]) := rfl
      rw [e1, e2]
      exact add_le_add_left ih _

theorem isChain_append_singleton (G : Graph) :
    ∀ (xs : List Nat) (v : Nat), isChain G (xs ++ [v]) = true →
      isChain G xs = true
  | [], _, _ => rfl
  | [_], _, _ => rfl
  | u :: w :: rest, v, h => by
      have h' := h
      simp only [List.cons_append, isChain, Bool.and_eq_true] at h'
      obtain ⟨h1, h2⟩ := h'
      have ih := isChain_append_singleton G (w :: rest) v (by
        simpa [List.cons_append] using h2)
      simp [isChain, h1, ih]

/-- `dict.update` semantics of repeated `add_edge` during multigraph
conversion: attributes of the later parallel edge override, an attribute
it lacks keeps the earlier value. -/
def EdgeData.update (d1 d2 : EdgeData) : EdgeData :=
  { length := match d2.length with
      | some l => some l
      | none => d1.length }

/-- One `add_edge` step of the `nx.DiGraph` constructor: a new ordered
pair is appended, a repeated pair updates the stored attributes in
place. -/
def addEdge (es : List ((Nat × Nat) × EdgeData)) (e : (Nat × Nat) × EdgeData) :
    List ((Nat × Nat) × EdgeData) :=
  if es.any (fun e0 => decide (e0.1 = e.1)) then
    es.map (fun e0 => if e0.1 = e.1 then (e0.1, EdgeData.update e0.2 e.2) else e0)
  else es ++ [e]

/-- `nx.DiGraph(G)` at `app.py` line 13: nodes are kept, edges of the raw
multigraph are folded in order, collapsing parallel edges. -/
def buildDiGraph (raw : RawGraph) : Graph :=
  { nodes := raw.nodes, edges := raw.edges.foldl addEdge [] }

/-- `app.py` lines 9-17, `load_dehradun_graph`: the external fetch
(`ox.graph_from_place`) is modelled by its result, an `Except` carrying
either the raw graph or the message of a raised exception.  On success
the raw multigraph is converted with `nx.DiGraph`; on any exception the
function shows `st.error("Error loading map data: ...")` and returns
`None`.  Returns the graph option together with the error messages
shown. -/
def load_dehradun_graph (fetch : Except String RawGraph) :
    Option Graph × List String :=
  match fetch with
  | .ok raw => (some (buildDiGraph raw), [])
  | .error e => (none, ["Error loading map data: " ++ e])

/-- Successor node ids of `u` in `G`. -/
def successors (G : Graph) (u : Nat) : List Nat :=
  (G.edges.filter (fun e => decide (e.1.1 = u))).map (fun e => e.1.2)

/-- Extends every (reversed) path of the list by one outgoing edge of its
endpoint. -/
def extendPaths (G : Graph) (ps : List (List Nat)) : List (List Nat) :=
  ps.flatMap (fun p =>
    match p with
    | [] => []
    | u :: _ => (successors G u).map (fun v => v :: p))

/-- All reversed walks from `o` of at most `n` edges (head of each list is
the walk's endpoint). -/
def pathsUpTo (G : Graph) (o : Nat) : Nat → List (List Nat)
  | 0 => [[o]]
  | n + 1 => pathsUpTo G o n ++ extendPaths G (pathsUpTo G o n)

/-- The networkx weight function for `weight='length'`:
`data.get('length', 1)` (a missing attribute counts as 1). -/
def edgeWeight (G : Graph) (u v : Nat) : ℚ :=
  match get_edge_data G u v with
  | some ed => ed.length.getD 1
  | none => 0

/-- Total weight of a reversed walk. -/
def pathWeight (G : Graph) : List Nat → ℚ
  | u :: v :: rest => edgeWeight G v u + pathWeight G (v :: rest)
  | _ => 0

/-- First element of least `pathWeight` in the list. -/
def pickMin (G : Graph) : List (List Nat) → Option (List Nat)
  | [] => none
  | p :: ps =>
      match pickMin G ps with
      | none => some p
      | some q => if pathWeight G p ≤ pathWeight G q then some p else some q

/-- `app.py` lines 20-26, `get_shortest_route`, around
`nx.shortest_path(G, origin, destination, weight='length')`: raises
`NodeNotFound` (uncaught, modelled `.error ()`) when either endpoint is
not a node; returns `[origin]` when origin equals destination; otherwise
returns a minimum-weight path, or `None` (`.ok none`) when none exists —
the library's `NetworkXNoPath` is caught and turned into `None` after
`st.error`.  A walk of at most `|nodes|` edges suffices for existence. -/
def get_shortest_route (G : Graph) (origin_node destination_node : Nat) :
    Except Unit (Option (List Nat)) :=
  if origin_node ∈ nodeIds G ∧ destination_node ∈ nodeIds G then
    if origin_node = destination_node then .ok (some [origin_node])
    else
      match pickMin G ((pathsUpTo G origin_node G.nodes.length).filter
          (fun p => decide (p.head? = some destination_node))) with
      | some p => .ok (some p.reverse)
      | none => .ok none
  else .error ()

/-- `destination` is reachable from `origin` along edges of `G`. -/
inductive Reachable (G : Graph) : Nat → Nat → Prop
  | refl (u : Nat) : Reachable G u u
  | step {u v w : Nat} : get_edge_data G u v ≠ none →
      Reachable G v w → Reachable G u w

/-- A reversed walk along edges of `G` whose first (earliest) node is `o`. -/
def RevWalkFrom (G : Graph) (o : Nat) : List Nat → Prop
  | [] => False
  | [u] => u = o
  | u :: v :: rest => get_edge_data G v u ≠ none ∧ RevWalkFrom G o (v :: rest)

theorem revWalkFrom_extend (G : Graph) (o : Nat) :
    ∀ p ∈ pathsUpTo G o n, RevWalkFrom G o p := by
  induction n with
  | zero =>
      intro p hp
      simp only [pathsUpTo, List.mem_singleton] at hp
      subst hp
      rfl
  | succ n ih =>
      intro p hp
      simp only [pathsUpTo, List.mem_append] at hp
      rcases hp with hp | hp
      · exact ih p hp
      · simp only [extendPaths, List.mem_flatMap] at hp
        obtain ⟨q, hq, hpq⟩ := hp
        have hwalk := ih q hq
        cases q with
        | nil => simp at hpq
        | cons u rest =>
            simp only [List.mem_map, successors, List.mem_filter] at hpq
            obtain ⟨v, ⟨e, ⟨he, heu⟩, hev⟩, rfl⟩ := hpq
            refine ⟨?_, hwalk⟩
            have heq : e.1 = (u, v) := by
              have h1 : e.1.1 = u := of_decide_eq_true heu
              cases e with
              | mk k d =>
                  cases k with
                  | mk a b =>
                      simp only at h1 hev
                      simp [h1, hev]
            intro hnone
            have : (G.edges.find? (fun e0 => decide (e0.1 = (u, v)))) = none := by
              simpa [get_edge_data] using hnone
            have := List.find?_eq_none.mp this e he
            simp [heq] at this

theorem revWalkFrom_reachable (G : Graph) (o : Nat) :
    ∀ p, RevWalkFrom G o p → ∀ u rest, p = u :: rest → Reachable G o u
  | [], h => by cases h
  | [w], h => by
      intro u rest hp
      cases hp
      cases h
      exact Reachable.refl o
  | w :: v :: rest, h => by
      intro u rest' hp
      cases hp
      obtain ⟨hedge, hwalk⟩ := h
      have hov : Reachable G o v :=
        revWalkFrom_reachable G o (v :: rest) hwalk v rest rfl
      exact reachable_trans_edge hov hedge
where
  reachable_trans_edge {G : Graph} {o v u : Nat} (hov : Reachable G o v)
      (h : get_edge_data G v u ≠ none) : Reachable G o u := by
    induction hov with
    | refl w => exact Reachable.step h (Reachable.refl u)
    | step he _ ih => exact Reachable.step he (ih h)

theorem pickMin_mem (G : Graph) :
    ∀ ps p, pickMin G ps = some p → p ∈ ps
  | [], p, h => by cases h
  | q :: ps, p, h => by
      simp only [pickMin] at h
      cases hrec : pickMin G ps with
      | none =>
          rw [hrec] at h
          cases h
          exact List.mem_cons_self q ps
      | some r =>
          rw [hrec] at h
          by_cases hle : pathWeight G q ≤ pathWeight G r
          · simp only [hle, if_pos] at h
            cases h
            exact List.mem_cons_self q ps
          · simp only [hle, if_neg, not_false_iff] at h
            cases h
            exact List.mem_cons_of_mem q (pickMin_mem G ps p hrec)

/-- A folium marker: location, popup text, icon color. -/
structure Marker where
  location : ℚ × ℚ
  popup : String
  color : String
  deriving Repr, DecidableEq

/-- A folium polyline: coordinate list and styling. -/
structure PolyLine where
  points : List (ℚ × ℚ)
  color : String
  weight : Nat
  opacity : ℚ
  deriving Repr, DecidableEq

/-- The folium map built by `create_route_map`: center location, zoom,
route polyline and the two markers in insertion order. -/
structure RouteMap where
  location : ℚ × ℚ
  zoom_start : Nat
  line : PolyLine
  markers : List Marker
  deriving Repr, DecidableEq

/-- `(G.nodes[node]['y'], G.nodes[node]['x'])`: the (lat, lon) of a node,
`none` models the `KeyError` on a node absent from the graph. -/
def nodeCoord (G : Graph) (n : Nat) : Option (ℚ × ℚ) :=
  (nodeData G n).map (fun nd => (nd.y, nd.x))

/-- The list comprehension at `app.py` line 38: the (lat, lon) of every
route node in order; `none` models the `KeyError` raised on a node absent
from the graph. -/
def projectCoords (G : Graph) : List Nat → Option (List (ℚ × ℚ))
  | [] => some []
  | n :: rest => do
      let c ← nodeCoord G n
      let cs ← projectCoords G rest
      pure (c :: cs)

/-- `app.py` lines 37-50, `create_route_map`: projects each route node to
its (lat, lon); centers at the arithmetic mean of the coordinates (the
division by `len(route_coords)` raises `ZeroDivisionError` on an empty
route, modelled by `none`); draws the blue polyline over the coordinates
in order; places a green marker at the first coordinate with popup
`"Start: <name>"` and a red one at the last with `"End: <name>"`. -/
def create_route_map (G : Graph) (route : List Nat)
    (start_name end_name : String) : Option RouteMap := do
  let route_coords ← projectCoords G route
  match route_coords with
  | [] => none
  | c :: cs =>
    let pts := c :: cs
    let center_lat := (pts.map Prod.fst).sum / (pts.length : ℚ)
    let center_lon := (pts.map Prod.snd).sum / (pts.length : ℚ)
    some
      { location := (center_lat, center_lon)
        zoom_start := 13
        line := { points := pts, color := "blue", weight := 6, opacity := 7 / 10 }
        markers :=
          [{ location := c, popup := "Start: " ++ start_name, color := "green" },
           { location := pts.getLast (List.cons_ne_nil c cs),
             popup := "End: " ++ end_name, color := "red" }] }

/-- `app.py` lines 54-66, `get_locations`: the fixed ordered catalog of
place names with their (lat, lon). -/
def get_locations : List (String × (ℚ × ℚ)) :=
  [("Clock Tower", (30.3253, 78.0413)),
   ("ISBT", (30.2881, 78.0428)),
   ("Rajpur Road", (30.3440, 78.0689)),
   ("Pacific Mall", (30.3387, 78.0554)),
   ("Forest Research Institute", (30.3417, 77.9996)),
   ("Robber\x27s Cave", (30.3752, 78.0689)),
   ("Sahastradhara", (30.3879, 78.1231)),
   ("Mussoorie Road", (30.4059, 78.0300)),
   ("Buddha Temple", (30.3358, 78.0433)),
   ("Paltan Bazaar", (30.3218, 78.0440))]

/-- `locations[name]` lookup. -/
def locCoords (name : String) : Option (ℚ × ℚ) :=
  (get_locations.find? (fun e => decide (e.1 = name))).map Prod.snd

/-- Models `ox.distance.nearest_nodes(G, X, Y)` (X longitude, Y latitude):
the node id whose coordinates minimize the distance to the query point
(here by squared coordinate differences; the choice of metric is
irrelevant to every property proved below).  `none` models the failure on
a graph with no nodes. -/
def nearest_nodes (G : Graph) (X Y : ℚ) : Option Nat :=
  go G.nodes
where
  dist2 (nd : NodeData) (X Y : ℚ) : ℚ :=
    (nd.x - X) * (nd.x - X) + (nd.y - Y) * (nd.y - Y)
  go : List (Nat × NodeData) → Option Nat
    | [] => none
    | (i, nd) :: rest =>
        match goBest rest with
        | none => some i
        | some (j, nd') =>
            if dist2 nd X Y ≤ dist2 nd' X Y then some i else some j
  goBest : List (Nat × NodeData) → Option (Nat × NodeData)
    | [] => none
    | (i, nd) :: rest =>
        match goBest rest with
        | none => some (i, nd)
        | some (j, nd') =>
            if dist2 nd X Y ≤ dist2 nd' X Y then some (i, nd) else some (j, nd')

/-- The orchestrator's state after a request (spec §4.7): `halted` when
the session stopped before its interactive part, `idle` when awaiting a
valid computation, `routed` when a route was computed and displayed. -/
inductive Outcome
  | halted
  | idle
  | routed
  deriving Repr, DecidableEq

/-- Observable result of one run of `main` (`app.py` lines 68-102):
every `st.error` and `st.warning` message, and the route, distance and
map produced (each `none` when that stage was never reached). -/
structure MainResult where
  errors : List String
  warnings : List String
  route : Option (List Nat)
  distanceKm : Option ℚ
  map : Option RouteMap
  outcome : Outcome
  deriving Repr, DecidableEq

/-- `app.py` lines 68-102, `main`, for one request: the external fetch
result, the two selected names and whether the button was pressed are the
inputs.  `st.stop` ends the run with the messages shown so far; an
uncaught exception (a selection outside the catalog, an empty graph, or a
raise inside `get_route_length_km`/`create_route_map`) is modelled by
`none`. -/
def mainStep (fetch : Except String RawGraph)
    (start_location end_location : String) (pressed : Bool) :
    Option MainResult :=
  match load_dehradun_graph fetch with
  | (none, errs) => some ⟨errs, [], none, none, none, .halted⟩
  | (some G, _) =>
    if start_location = end_location then
      some ⟨[], ["Start and destination must be different."], none, none, none, .idle⟩
    else if pressed then do
      let start_coords ← locCoords start_location
      let end_coords ← locCoords end_location
      let origin_node ← nearest_nodes G start_coords.2 start_coords.1
      let destination_node ← nearest_nodes G end_coords.2 end_coords.1
      match get_shortest_route G origin_node destination_node with
      | .error _ => none
      | .ok none =>
          some ⟨["No path exists between these locations.", "No route found."],
            [], none, none, none, .idle⟩
      | .ok (some route) => do
          let distance_km ← get_route_length_km G route
          let route_map ← create_route_map G route start_location end_location
          some ⟨[], [], some route, some distance_km, some route_map, .routed⟩
    else some ⟨[], [], none, none, none, .idle⟩

theorem keys_addEdge_of_any (es : List ((Nat × Nat) × EdgeData))
    (e : (Nat × Nat) × EdgeData)
    (h : es.any (fun e0 => decide (e0.1 = e.1)) = true) :
    (addEdge es e).map Prod.fst = es.map Prod.fst := by
  simp only [addEdge, h, if_pos, List.map_map]
  congr 1
  funext e0
  by_cases he : e0.1 = e.1 <;> simp [he]

theorem keys_addEdge_of_not_any (es : List ((Nat × Nat) × EdgeData))
    (e : (Nat × Nat) × EdgeData)
    (h : es.any (fun e0 => decide (e0.1 = e.1)) = false) :
    (addEdge es e).map Prod.fst = es.map Prod.fst ++ [e.1] := by
  simp only [addEdge, h]
  simp

theorem nodup_keys_addEdge (es : List ((Nat × Nat) × EdgeData))
    (e : (Nat × Nat) × EdgeData) (h : (es.map Prod.fst).Nodup) :
    ((addEdge es e).map Prod.fst).Nodup := by
  cases hc : es.any (fun e0 => decide (e0.1 = e.1)) with
  | true => rw [keys_addEdge_of_any es e hc]; exact h
  | false =>
      rw [keys_addEdge_of_not_any es e hc]
      have hnot : e.1 ∉ es.map Prod.fst := by
        intro hmem
        obtain ⟨e0, he0, heq⟩ := List.mem_map.mp hmem
        have : es.any (fun e0 => decide (e0.1 = e.1)) = true :=
          List.any_eq_true.mpr ⟨e0, he0, by simp [heq]⟩
        rw [hc] at this
        cases this
      simp [List.nodup_append, h, hnot]

theorem mem_keys_addEdge (es : List ((Nat × Nat) × EdgeData))
    (e : (Nat × Nat) × EdgeData) (p : Nat × Nat) :
    p ∈ (addEdge es e).map Prod.fst ↔ p ∈ es.map Prod.fst ∨ p = e.1 := by
  cases hc : es.any (fun e0 => decide (e0.1 = e.1)) with
  | true =>
      rw [keys_addEdge_of_any es e hc]
      constructor
      · exact Or.inl
      · rintro (h | rfl)
        · exact h
        · obtain ⟨e0, he0, heq⟩ := List.any_eq_true.mp hc
          exact List.mem_map.mpr ⟨e0, he0, of_decide_eq_true heq⟩
  | false =>
      rw [keys_addEdge_of_not_any es e hc]
      simp

theorem nodup_keys_foldl_addEdge (l : List ((Nat × Nat) × EdgeData)) :
    ∀ acc : List ((Nat × Nat) × EdgeData), (acc.map Prod.fst).Nodup →
      ((l.foldl addEdge acc).map Prod.fst).Nodup := by
  induction l with
  | nil => intro acc h; exact h
  | cons e l ih =>
      intro acc h
      exact ih (addEdge acc e) (nodup_keys_addEdge acc e h)

theorem mem_keys_foldl_addEdge (l : List ((Nat × Nat) × EdgeData)) :
    ∀ (acc : List ((Nat × Nat) × EdgeData)) (p : Nat × Nat),
      p ∈ (l.foldl addEdge acc).map Prod.fst ↔
        p ∈ acc.map Prod.fst ∨ p ∈ l.map Prod.fst := by
  induction l with
  | nil => intro acc p; simp
  | cons e l ih =>
      intro acc p
      rw [List.foldl_cons, ih (addEdge acc e) p, mem_keys_addEdge acc e p]
      simp only [List.map_cons, List.mem_cons]
      tauto

theorem reachable_eq_of_no_edges (G : Graph) (h : G.edges = []) :
    ∀ u v : Nat, Reachable G u v → u = v := by
  intro u v huv
  induction huv with
  | refl w => rfl
  | step he _ _ =>
      exact absurd (by simp [get_edge_data, h]) he

theorem projectCoords_isSome (G : Graph) :
    ∀ route : List Nat, (∀ n ∈ route, (nodeData G n).isSome = true) →
      ∃ coords, projectCoords G route = some coords ∧
        coords.length = route.length
  | [], _ => ⟨[], rfl, rfl⟩
  | n :: rest, h => by
      have hn : (nodeData G n).isSome = true := h n (List.mem_cons_self n rest)
      obtain ⟨nd, hnd⟩ := Option.isSome_iff_exists.mp hn
      obtain ⟨cs, hcs, hlen⟩ := projectCoords_isSome G rest
        (fun m hm => h m (List.mem_cons_of_mem n hm))
      exact ⟨(nd.y, nd.x) :: cs, by simp [projectCoords, nodeCoord, hnd, hcs],
        by simp [hlen]⟩

/-- A small concrete graph for instantiating the theorems: three nodes,
an edge `0 → 1` of length 500 m and an edge `1 → 2` whose attribute dict
lacks `length`. -/
def exGraph : Graph :=
  { nodes := [(0, ⟨1, 2⟩), (1, ⟨3, 4⟩), (2, ⟨5, 6⟩)]
    edges := [((0, 1), ⟨some 500⟩), ((1, 2), ⟨none⟩)] }

/-- A raw fetch result with two nodes placed at the catalog coordinates of
Clock Tower and ISBT, and no edges at all. -/
def twoNodeRaw : RawGraph :=
  { nodes := [(0, ⟨30.3253, 78.0413⟩), (1, ⟨30.2881, 78.0428⟩)]
    edges := [] }

/-- The simple digraph built from `twoNodeRaw`. -/
def twoNodeGraph : Graph := buildDiGraph twoNodeRaw

/-- A raw fetch result with two parallel edges `0 → 1` and one edge
`1 → 2`, for the multigraph-collapse theorems. -/
def parallelRaw : RawGraph :=
  { nodes := [(0, ⟨1, 2⟩), (1, ⟨3, 4⟩), (2, ⟨5, 6⟩)]
    edges := [((0, 1), ⟨some 5⟩), ((0, 1), ⟨some 7⟩), ((1, 2), ⟨none⟩)] }

/-- C1: on every route satisfying the Route invariant (each consecutive
pair is an edge of the graph), `get_route_length_km` returns — without
raising — the sum of the traversed edges' `length` attributes in meters,
an edge lacking the attribute contributing 0, divided by 1000. -/
theorem claim_C1_route_length_total_on_chains (G : Graph) (route : List Nat)
    (h : isChain G route = true) :
    get_route_length_km G route = some (sumLengths G route / 1000) := by
  unfold get_route_length_km
  rw [routeLengthSum_eq_some_of_isChain G route h]
  rfl

/-- Witness for C1 on `exGraph` and the route `[0, 1, 2]`: the second
edge lacks `length`, contributes 0, and the result is 500/1000 km. -/
theorem claim_C1_route_length_total_on_chains_witness :
    isChain exGraph [0, 1, 2] = true ∧
      get_route_length_km exGraph [0, 1, 2] = some (1 / 2) :=
  ⟨by decide, by
    rw [claim_C1_route_length_total_on_chains exGraph [0, 1, 2] (by decide)]
    norm_num [sumLengths, exGraph, get_edge_data]⟩

/-- C9: on a route violating the Route invariant — some consecutive pair
is not an edge — the `0` default of `get_edge_data` makes the `.get`
lookup raise, so `get_route_length_km` raises (`none`) instead of
contributing 0. -/
theorem claim_C9_route_length_raises_off_invariant (G : Graph)
    (route : List Nat) (h : isChain G route = false) :
    get_route_length_km G route = none := by
  unfold get_route_length_km
  rw [routeLengthSum_eq_none_of_not_isChain G route h]
  rfl

/-- Witness for C9: in `exGraph` the pair `(0, 2)` is not an edge, and
`get_route_length_km` on `[0, 2]` raises. -/
theorem claim_C9_route_length_raises_off_invariant_witness :
    isChain exGraph [0, 2] = false ∧
      get_route_length_km exGraph [0, 2] = none :=
  ⟨by decide, claim_C9_route_length_raises_off_invariant exGraph [0, 2] (by decide)⟩

/-- C4: on a chain route whose traversed edges all have non-negative
length contributions, `get_route_length_km` is non-negative, and
appending one more edge of non-negative length never decreases it. -/
theorem claim_C4_route_length_nonneg_monotone (G : Graph) (route : List Nat)
    (v : Nat) (hchain : isChain G (route ++ [v]) = true)
    (hnn : nonnegChain G (route ++ [v]) = true) :
    ∃ a b, get_route_length_km G route = some a ∧
      get_route_length_km G (route ++ [v]) = some b ∧ 0 ≤ a ∧ a ≤ b := by
  have hchain' : isChain G route = true := isChain_append_singleton G route v hchain
  have hnn' : nonnegChain G route = true := nonnegChain_append_singleton G route v hnn
  refine ⟨sumLengths G route / 1000, sumLengths G (route ++ [v]) / 1000, ?_, ?_, ?_, ?_⟩
  · unfold get_route_length_km
    rw [routeLengthSum_eq_some_of_isChain G route hchain']
    rfl
  · unfold get_route_length_km
    rw [routeLengthSum_eq_some_of_isChain G (route ++ [v]) hchain]
    rfl
  · exact div_nonneg (sumLengths_nonneg G route hnn') (by norm_num)
  · have hmono := sumLengths_append_singleton_mono G route v hnn
    have h1000 : (0 : ℚ) < 1000 := by norm_num
    exact (div_le_div_iff_of_pos_right h1000).mpr hmono

/-- Witness for C4 on `exGraph`: route `[0, 1]` extended by the edge to
`2`; both lengths are defined and `1/2 ≤ 1/2`. -/
theorem claim_C4_route_length_nonneg_monotone_witness :
    ∃ a b, get_route_length_km exGraph [0, 1] = some a ∧
      get_route_length_km exGraph ([0, 1] ++ [2]) = some b ∧ 0 ≤ a ∧ a ≤ b :=
  claim_C4_route_length_nonneg_monotone exGraph [0, 1] 2 (by decide) (by decide)

/-- C3: when origin and destination are the same node of the graph, the
route returned is the single-node sequence `[n]` and its length is 0 km. -/
theorem claim_C3_same_node_single_route (G : Graph) (n : Nat)
    (hn : n ∈ nodeIds G) :
    get_shortest_route G n n = .ok (some [n]) ∧
      get_route_length_km G [n] = some 0 := by
  constructor
  · simp [get_shortest_route, hn]
  · show (get_route_length_km.routeLengthSum G [n]).map _ = some 0
    simp [get_route_length_km.routeLengthSum]

/-- Witness for C3 at node 0 of `exGraph`. -/
theorem claim_C3_same_node_single_route_witness :
    get_shortest_route exGraph 0 0 = .ok (some [0]) ∧
      get_route_length_km exGraph [0] = some 0 :=
  claim_C3_same_node_single_route exGraph 0 (by decide)

/-- C5: the graph built by `load_dehradun_graph` from a successful fetch
is a simple directed graph: at most one stored edge per ordered node pair
(its edge keys are pairwise distinct), and exactly the ordered pairs of
the raw multigraph survive — parallel edges are collapsed to a single
representative. -/
theorem claim_C5_simple_digraph (raw : RawGraph) (G : Graph)
    (h : (load_dehradun_graph (.ok raw)).1 = some G) :
    (G.edges.map Prod.fst).Nodup ∧
      ∀ p : Nat × Nat, p ∈ G.edges.map Prod.fst ↔ p ∈ raw.edges.map Prod.fst := by
  have hG : G = buildDiGraph raw := by
    have : (load_dehradun_graph (.ok raw)).1 = some (buildDiGraph raw) := rfl
    rw [this] at h
    exact (Option.some_injective _ h).symm
  subst hG
  constructor
  · exact nodup_keys_foldl_addEdge raw.edges [] (by simp)
  · intro p
    rw [show (buildDiGraph raw).edges = raw.edges.foldl addEdge [] from rfl,
      mem_keys_foldl_addEdge raw.edges [] p]
    simp

/-- Witness for C5 on `parallelRaw`: the two parallel `0 → 1` edges
collapse to one, keys of the result are distinct, and the pair `(0, 1)`
survives. -/
theorem claim_C5_simple_digraph_witness :
    ((buildDiGraph parallelRaw).edges.map Prod.fst).Nodup ∧
      (((0, 1) : Nat × Nat) ∈ (buildDiGraph parallelRaw).edges.map Prod.fst ↔
        ((0, 1) : Nat × Nat) ∈ parallelRaw.edges.map Prod.fst) :=
  ⟨(claim_C5_simple_digraph parallelRaw (buildDiGraph parallelRaw) rfl).1,
   (claim_C5_simple_digraph parallelRaw (buildDiGraph parallelRaw) rfl).2 (0, 1)⟩

/-- C6: identical start and destination selections short-circuit the run
before the button is even consulted: a warning is shown, the session
stays idle, and no route, distance or map is produced. -/
theorem claim_C6_identical_selection_blocks (raw : RawGraph) (name : String)
    (pressed : Bool) :
    mainStep (.ok raw) name name pressed =
      some ⟨[], ["Start and destination must be different."],
        none, none, none, .idle⟩ := by
  simp [mainStep, load_dehradun_graph]

/-- C7: an exception in the external fetch is caught by
`load_dehradun_graph`, which returns `None` with a human-readable error
message; `main` then halts the session with only that message shown and
nothing produced, whatever the selections are. -/
theorem claim_C7_load_failure_halts (msg startName endName : String)
    (pressed : Bool) :
    load_dehradun_graph (.error msg) =
        (none, ["Error loading map data: " ++ msg]) ∧
      mainStep (.error msg) startName endName pressed =
        some ⟨["Error loading map data: " ++ msg], [],
          none, none, none, .halted⟩ :=
  ⟨rfl, rfl⟩

/-- C2: when the resolved origin and destination are nodes of the loaded
graph but the destination is unreachable, `get_shortest_route` returns
`None` instead of raising; `main` surfaces the failure as the two error
messages and stops the request: no route, no distance, no map. -/
theorem claim_C2_no_path_reported_and_stops (raw : RawGraph) (G : Graph)
    (hG : buildDiGraph raw = G) (o d : Nat)
    (ho : o ∈ nodeIds G) (hd : d ∈ nodeIds G)
    (hun : ¬ Reachable G o d)
    (startName endName : String) (hne : startName ≠ endName)
    (sc ec : ℚ × ℚ) (hsc : locCoords startName = some sc)
    (hec : locCoords endName = some ec)
    (hon : nearest_nodes G sc.2 sc.1 = some o)
    (hdn : nearest_nodes G ec.2 ec.1 = some d) :
    get_shortest_route G o d = .ok none ∧
      mainStep (.ok raw) startName endName true =
        some ⟨["No path exists between these locations.", "No route found."],
          [], none, none, none, .idle⟩ := by
  have hod : o ≠ d := fun h => hun (h ▸ Reachable.refl o)
  have h1 : get_shortest_route G o d = .ok none := by
    unfold get_shortest_route
    rw [if_pos ⟨ho, hd⟩, if_neg hod]
    cases hpick : pickMin G ((pathsUpTo G o G.nodes.length).filter
        (fun p => decide (p.head? = some d))) with
    | none => rfl
    | some p =>
        exfalso
        have hmem := pickMin_mem G _ p hpick
        rw [List.mem_filter] at hmem
        obtain ⟨hpaths, hhead⟩ := hmem
        have hhead' : p.head? = some d := of_decide_eq_true hhead
        have hwalk := revWalkFrom_extend G o p hpaths
        cases p with
        | nil => simp at hhead'
        | cons u rest =>
            have hu : u = d := by simpa using hhead'
            subst hu
            exact hun (revWalkFrom_reachable G o (u :: rest) hwalk u rest rfl)
  have hload : load_dehradun_graph (.ok raw) = (some G, []) := by
    simp [load_dehradun_graph, hG]
  refine ⟨h1, ?_⟩
  simp [mainStep, hload, hne, hsc, hec, hon, hdn, h1]

/-- Witness for C2: a graph holding the two catalog locations as isolated
nodes; Clock Tower resolves to node 0, ISBT to node 1, no path exists. -/
theorem claim_C2_no_path_reported_and_stops_witness :
    get_shortest_route twoNodeGraph 0 1 = .ok none ∧
      mainStep (.ok twoNodeRaw) "Clock Tower" "ISBT" true =
        some ⟨["No path exists between these locations.", "No route found."],
          [], none, none, none, .idle⟩ :=
  claim_C2_no_path_reported_and_stops twoNodeRaw twoNodeGraph rfl 0 1
    (by decide) (by decide)
    (fun h => absurd (reachable_eq_of_no_edges twoNodeGraph rfl 0 1 h)
      (by decide))
    "Clock Tower" "ISBT" (by decide)
    (30.3253, 78.0413) (30.2881, 78.0428) rfl rfl
    (by norm_num [nearest_nodes, nearest_nodes.go, nearest_nodes.goBest,
      nearest_nodes.dist2, twoNodeGraph, twoNodeRaw, buildDiGraph])
    (by norm_num [nearest_nodes, nearest_nodes.go, nearest_nodes.goBest,
      nearest_nodes.dist2, twoNodeGraph, twoNodeRaw, buildDiGraph])

/-- C8: whenever the projection of the route nodes to their (lat, lon)
yields the non-empty coordinate list `c :: cs`, `create_route_map`
centers the map at the arithmetic mean of those coordinates, draws one
blue polyline over them in order, and puts a green start marker at the
first coordinate and a red end marker at the last, labeled with the
selection names. -/
theorem claim_C8_route_map_geometry (G : Graph) (route : List Nat)
    (start_name end_name : String) (c : ℚ × ℚ) (cs : List (ℚ × ℚ))
    (hproj : projectCoords G route = some (c :: cs)) :
    create_route_map G route start_name end_name = some
      { location := (((c :: cs).map Prod.fst).sum / (((c :: cs).length : ℚ)),
                     ((c :: cs).map Prod.snd).sum / (((c :: cs).length : ℚ)))
        zoom_start := 13
        line := { points := c :: cs, color := "blue", weight := 6,
                  opacity := 7 / 10 }
        markers :=
          [{ location := c, popup := "Start: " ++ start_name, color := "green" },
           { location := (c :: cs).getLast (List.cons_ne_nil c cs),
             popup := "End: " ++ end_name, color := "red" }] } := by
  simp [create_route_map, hproj]

/-- Witness for C8 on `exGraph` with route `[0, 1, 2]`: centroid (3, 4),
polyline over the three node coordinates, labeled end markers. -/
theorem claim_C8_route_map_geometry_witness :
    create_route_map exGraph [0, 1, 2] "Clock Tower" "ISBT" = some
      { location := (3, 4)
        zoom_start := 13
        line := { points := [(1, 2), (3, 4), (5, 6)], color := "blue",
                  weight := 6, opacity := 7 / 10 }
        markers :=
          [{ location := (1, 2), popup := "Start: " ++ "Clock Tower",
             color := "green" },
           { location := (5, 6), popup := "End: " ++ "ISBT", color := "red" }] } := by
  rw [claim_C8_route_map_geometry exGraph [0, 1, 2] "Clock Tower" "ISBT"
    (1, 2) [(3, 4), (5, 6)] rfl]
  norm_num [List.getLast]

/-- C10: `create_route_map` raises on the empty route (the centroid
divides by the number of coordinates, zero), and succeeds on every
non-empty route whose nodes are all present in the graph. -/
theorem claim_C10_route_map_totality (G : Graph) (route : List Nat)
    (start_name end_name : String)
    (hmem : ∀ n ∈ route, (nodeData G n).isSome = true)
    (hne : route ≠ []) :
    create_route_map G [] start_name end_name = none ∧
      (create_route_map G route start_name end_name).isSome = true := by
  constructor
  · rfl
  · obtain ⟨coords, hcoords, hlen⟩ := projectCoords_isSome G route hmem
    cases coords with
    | nil =>
        cases route with
        | nil => exact absurd rfl hne
        | cons n rest => simp at hlen
    | cons c cs => simp [create_route_map, hcoords]

/-- Witness for C10 on `exGraph` with route `[0, 1, 2]`. -/
theorem claim_C10_route_map_totality_witness :
    create_route_map exGraph [] "Clock Tower" "ISBT" = none ∧
      (create_route_map exGraph [0, 1, 2] "Clock Tower" "ISBT").isSome = true :=
  claim_C10_route_map_totality exGraph [0, 1, 2] "Clock Tower" "ISBT"
    (by decide) (by decide)

end GraphApp
